import Mathlib

/-!
Shallow embedding of the trufflepiggie GitHub search tool (Python sources
under `src/`) and proofs about it.  Dates that the Python code renders as
`YYYY-MM-DD` strings are modelled as structured `(year, month, day)` triples;
the integers involved are all non-negative in the source, so they are
modelled as `Nat`.  Fallible operations return `Option`.
-/

namespace Trufflepiggie

/-- `calendar.isleap`: the leap-year rule underlying `calendar.monthrange`. -/
def isLeapYear (y : Nat) : Bool :=
  y % 4 == 0 && (y % 100 != 0 || y % 400 == 0)

/-- The number of days in a month, as returned by
`calendar.monthrange(year, month)[1]`.  The source only calls it with
`1 ≤ month ≤ 12`. -/
def monthrange (y m : Nat) : Nat :=
  if m = 2 then (if isLeapYear y then 29 else 28)
  else if m = 4 ∨ m = 6 ∨ m = 9 ∨ m = 11 then 30
  else 31

/-- A calendar date; the Python code renders it as the string `YYYY-MM-DD`. -/
structure Date where
  year : Nat
  month : Nat
  day : Nat
  deriving DecidableEq

/-- Lexicographic order on dates (the order the `YYYY-MM-DD` rendering
realises for 4-digit years). -/
def dateLe (a b : Date) : Prop :=
  a.year < b.year ∨ (a.year = b.year ∧
    (a.month < b.month ∨ (a.month = b.month ∧ a.day ≤ b.day)))

instance (a b : Date) : Decidable (dateLe a b) := by
  unfold dateLe; infer_instance

/-- A slice `(start, end)` contains a date `d` iff `start ≤ d ≤ end`. -/
def containsDate (p : Date × Date) (d : Date) : Prop :=
  dateLe p.1 d ∧ dateLe d p.2

instance (p : Date × Date) (d : Date) : Decidable (containsDate p d) := by
  unfold containsDate; infer_instance

/-- `helpers.get_months_in_year`: one `(start, end)` range per month of the
year.  Month 12 is special-cased to end on day 31 in the source; the other
months end on `calendar.monthrange(year, month)[1]`. -/
def get_months_in_year (y : Nat) : List (Date × Date) :=
  (List.range 12).map (fun i =>
    let m := i + 1
    (⟨y, m, 1⟩, ⟨y, m, if m = 12 then 31 else monthrange y m⟩))

/-- `helpers.get_days_in_month`: one single-day `(d, d)` range per calendar
day of the month. -/
def get_days_in_month (y m : Nat) : List (Date × Date) :=
  (List.range (monthrange y m)).map (fun i => (⟨y, m, i + 1⟩, ⟨y, m, i + 1⟩))

/-- December always has 31 days, so the month-12 special case in
`get_months_in_year` agrees with `calendar.monthrange`. -/
lemma monthrange_twelve (y : Nat) : monthrange y 12 = 31 := by
  simp [monthrange]

/-- Characterisation of membership in the `i`-th month slice of a year. -/
lemma contains_month_slice (y i : Nat) (d : Date) :
    containsDate (⟨y, i + 1, 1⟩, ⟨y, i + 1, if i + 1 = 12 then 31 else monthrange y (i + 1)⟩) d ↔
      d.year = y ∧ d.month = i + 1 ∧ 1 ≤ d.day ∧ d.day ≤ monthrange y (i + 1) := by
  have h12 : (if i + 1 = 12 then 31 else monthrange y (i + 1)) = monthrange y (i + 1) := by
    split
    · next h => rw [h, monthrange_twelve]
    · rfl
  rw [h12]
  unfold containsDate dateLe
  dsimp only
  omega

/-- Characterisation of membership in the day slice for day `j + 1`. -/
lemma contains_day_slice (y m j : Nat) (d : Date) :
    containsDate (⟨y, m, j + 1⟩, ⟨y, m, j + 1⟩) d ↔
      d.year = y ∧ d.month = m ∧ d.day = j + 1 := by
  unfold containsDate dateLe
  dsimp only
  omega

/-- The elements of `get_months_in_year` are exactly the 12 month slices. -/
lemma mem_get_months_in_year (y : Nat) (p : Date × Date) :
    p ∈ get_months_in_year y ↔
      ∃ i < 12, p = (⟨y, i + 1, 1⟩,
        ⟨y, i + 1, if i + 1 = 12 then 31 else monthrange y (i + 1)⟩) := by
  unfold get_months_in_year
  simp only [List.mem_map, List.mem_range]
  constructor
  · rintro ⟨i, hi, rfl⟩; exact ⟨i, hi, rfl⟩
  · rintro ⟨i, hi, rfl⟩; exact ⟨i, hi, rfl⟩

/-- The elements of `get_days_in_month` are exactly the day slices. -/
lemma mem_get_days_in_month (y m : Nat) (p : Date × Date) :
    p ∈ get_days_in_month y m ↔
      ∃ j < monthrange y m, p = (⟨y, m, j + 1⟩, ⟨y, m, j + 1⟩) := by
  unfold get_days_in_month
  simp only [List.mem_map, List.mem_range]
  constructor
  · rintro ⟨j, hj, rfl⟩; exact ⟨j, hj, rfl⟩
  · rintro ⟨j, hj, rfl⟩; exact ⟨j, hj, rfl⟩

/-- C1.  Splitting a year produces exactly 12 month slices that partition
the year `[Y-01-01, Y-12-31]` (every valid calendar day of the year is
covered by exactly one month slice, and month slices contain only valid
days of the year); splitting a month produces one single-day slice per
calendar day of that month, again with exact coverage; and leap years are
respected: February 2020 yields 29 day slices, February 2021 yields 28. -/
theorem slice_partition (y m d : Nat)
    (hm1 : 1 ≤ m) (hm2 : m ≤ 12) (hd1 : 1 ≤ d) (hd2 : d ≤ monthrange y m) :
    (get_months_in_year y).length = 12
    ∧ (∃ p ∈ get_months_in_year y, containsDate p ⟨y, m, d⟩)
    ∧ (∀ p ∈ get_months_in_year y, ∀ q ∈ get_months_in_year y, ∀ dt : Date,
        containsDate p dt → containsDate q dt → p = q)
    ∧ (∀ p ∈ get_months_in_year y, ∀ dt : Date, containsDate p dt →
        dt.year = y ∧ 1 ≤ dt.month ∧ dt.month ≤ 12 ∧ 1 ≤ dt.day ∧
          dt.day ≤ monthrange y dt.month)
    ∧ (get_days_in_month y m).length = monthrange y m
    ∧ (∀ p ∈ get_days_in_month y m, p.1 = p.2)
    ∧ (∃ p ∈ get_days_in_month y m, containsDate p ⟨y, m, d⟩)
    ∧ (∀ p ∈ get_days_in_month y m, ∀ q ∈ get_days_in_month y m, ∀ dt : Date,
        containsDate p dt → containsDate q dt → p = q)
    ∧ (get_days_in_month 2020 2).length = 29
    ∧ (get_days_in_month 2021 2).length = 28 := by
  refine ⟨?_, ?_, ?_, ?_, ?_, ?_, ?_, ?_, by decide, by decide⟩
  · simp [get_months_in_year]
  · have hm : m - 1 + 1 = m := by omega
    refine ⟨(⟨y, m, 1⟩, ⟨y, m, if m = 12 then 31 else monthrange y m⟩), ?_, ?_⟩
    · rw [mem_get_months_in_year]
      refine ⟨m - 1, by omega, ?_⟩
      rw [hm]
    · have := contains_month_slice y (m - 1) ⟨y, m, d⟩
      rw [hm] at this
      exact this.mpr ⟨rfl, rfl, hd1, hd2⟩
  · intro p hp q hq dt hpd hqd
    rw [mem_get_months_in_year] at hp hq
    obtain ⟨i, hi, rfl⟩ := hp
    obtain ⟨j, hj, rfl⟩ := hq
    rw [contains_month_slice] at hpd hqd
    have : i = j := by omega
    subst this
    rfl
  · intro p hp dt hpd
    rw [mem_get_months_in_year] at hp
    obtain ⟨i, hi, rfl⟩ := hp
    rw [contains_month_slice] at hpd
    obtain ⟨h1, h2, h3, h4⟩ := hpd
    rw [h2]
    exact ⟨h1, by omega, by omega, h3, h4⟩
  · simp [get_days_in_month]
  · intro p hp
    rw [mem_get_days_in_month] at hp
    obtain ⟨j, hj, rfl⟩ := hp
    rfl
  · refine ⟨(⟨y, m, d⟩, ⟨y, m, d⟩), ?_, ?_⟩
    · rw [mem_get_days_in_month]
      exact ⟨d - 1, by omega, by congr 2 <;> omega⟩
    · exact ⟨Or.inr ⟨rfl, Or.inr ⟨rfl, le_refl _⟩⟩,
        Or.inr ⟨rfl, Or.inr ⟨rfl, le_refl _⟩⟩⟩
  · intro p hp q hq dt hpd hqd
    rw [mem_get_days_in_month] at hp hq
    obtain ⟨i, hi, rfl⟩ := hp
    obtain ⟨j, hj, rfl⟩ := hq
    rw [contains_day_slice] at hpd hqd
    have : i = j := by omega
    subst this
    rfl

/-- Witness for C1 at the concrete input year 2020, date 2020-02-29. -/
theorem slice_partition_witness :
    ∃ p ∈ get_months_in_year 2020, containsDate p ⟨2020, 2, 29⟩ :=
  (slice_partition 2020 2 29 (by decide) (by decide) (by decide) (by decide)).2.1

/-- `engine.TimeSlice`: a time slice for the recursive search.  The source
stores `start_date` and `end_date` as `YYYY-MM-DD` strings and `level` as one
of the strings `"year"`, `"month"`, `"day"`; the dates are modelled
structurally, the level is kept as a string as in the source. -/
structure TimeSlice where
  start_date : Date
  end_date : Date
  level : String := "year"
  deriving DecidableEq

/-- `SearchEngine._generate_year_slices`: one year-level slice
`YYYY-01-01 .. YYYY-12-31` per year of the inclusive range. -/
def generate_year_slices (start_y end_y : Nat) : List TimeSlice :=
  (List.range (end_y + 1 - start_y)).map (fun i =>
    { start_date := ⟨start_y + i, 1, 1⟩, end_date := ⟨start_y + i, 12, 31⟩,
      level := "year" })

/-- `SearchEngine._split_time_slice`: year slices split into their 12 months,
month slices into their days, day slices into nothing.  The source recovers
the year (resp. year and month) by re-parsing `start_date`; on the structured
dates this is direct field access. -/
def split_time_slice (s : TimeSlice) : List TimeSlice :=
  if s.level = "year" then
    (get_months_in_year s.start_date.year).map (fun p =>
      { start_date := p.1, end_date := p.2, level := "month" })
  else if s.level = "month" then
    (get_days_in_month s.start_date.year s.start_date.month).map (fun p =>
      { start_date := p.1, end_date := p.2, level := "day" })
  else
    []

/-- Every month has at most 31 days. -/
lemma monthrange_le_31 (y m : Nat) : monthrange y m ≤ 31 := by
  unfold monthrange
  split
  · split <;> omega
  · split <;> omega

/-- C9.  The split ladder of the driver is at most 3 levels deep: a year
slice splits into exactly 12 month slices; each of those splits into at most
31 day slices; and a day slice yields no children, so the recursion on
slices bottoms out. -/
theorem split_ladder_bounded (s : TimeSlice) (h : s.level = "year") :
    (split_time_slice s).length = 12
    ∧ ∀ c ∈ split_time_slice s, c.level = "month"
        ∧ (split_time_slice c).length ≤ 31
        ∧ ∀ g ∈ split_time_slice c, g.level = "day" ∧ split_time_slice g = [] := by
  constructor
  · rw [split_time_slice, if_pos h, List.length_map]
    simp [get_months_in_year]
  · intro c hc
    rw [split_time_slice, if_pos h, List.mem_map] at hc
    obtain ⟨p, hp, hc⟩ := hc
    subst hc
    refine ⟨rfl, ?_, ?_⟩
    · rw [split_time_slice, if_neg (by simp), if_pos rfl, List.length_map]
      simpa [get_days_in_month] using monthrange_le_31 p.1.year p.1.month
    · intro g hg
      rw [split_time_slice, if_neg (by simp), if_pos rfl, List.mem_map] at hg
      obtain ⟨q, hq, hg⟩ := hg
      subst hg
      exact ⟨rfl, rfl⟩

/-- Witness for C9 at the concrete year slice for 2023. -/
theorem split_ladder_bounded_witness :
    (split_time_slice ⟨⟨2023, 1, 1⟩, ⟨2023, 12, 31⟩, "year"⟩).length = 12 :=
  (split_ladder_bounded ⟨⟨2023, 1, 1⟩, ⟨2023, 12, 31⟩, "year"⟩ rfl).1

/-- `helpers.format_date_range`: the `start..end` range rendering. -/
def format_date_range (start_date end_date : String) : String :=
  start_date ++ ".." ++ end_date

/-- `SearchEngine._build_query`: double-quote the domain, then append the
`created:` filter; a single-day slice (equal date strings) uses the bare
date, otherwise the `start..end` range. -/
def build_query (domain start_date end_date : String) : String :=
  let query := "\"" ++ domain ++ "\""
  if start_date = end_date then
    query ++ (" created:" ++ start_date)
  else
    query ++ (" created:" ++ start_date ++ ".." ++ end_date)

/-- String concatenation is associative (used to re-group the query pieces). -/
lemma string_append_assoc (a b c : String) : a ++ b ++ c = a ++ (b ++ c) := by
  apply String.ext
  simp

/-- C8.  The emitted query string is bit-exact: the double-quoted term, one
space, and `created:<start>..<end>` (rendered by `format_date_range`), or
`created:<start>` when the slice's start equals its end. -/
theorem query_grammar (domain s e : String) :
    (s = e → build_query domain s e = "\"" ++ domain ++ "\" created:" ++ s)
    ∧ (s ≠ e → build_query domain s e =
        "\"" ++ domain ++ "\" created:" ++ format_date_range s e) := by
  constructor
  · intro h
    rw [build_query, if_pos h]
    apply String.ext
    simp
  · intro h
    rw [build_query, if_neg h, format_date_range]
    apply String.ext
    simp

/-- Witness for C8: the query for `acme.com` over January 2023, and for the
single day 2023-01-01. -/
theorem query_grammar_witness :
    build_query "acme.com" "2023-01-01" "2023-01-31" =
      "\"" ++ "acme.com" ++ "\" created:" ++ format_date_range "2023-01-01" "2023-01-31"
    ∧ build_query "acme.com" "2023-01-01" "2023-01-01" =
      "\"" ++ "acme.com" ++ "\" created:" ++ "2023-01-01" :=
  ⟨(query_grammar "acme.com" "2023-01-01" "2023-01-31").2 (by decide),
   (query_grammar "acme.com" "2023-01-01" "2023-01-01").1 rfl⟩

/-- `SearchEngine.GITHUB_MAX_RESULTS`: GitHub's hard cap per query. -/
def GITHUB_MAX_RESULTS : Nat := 1000

/-- `search.per_page` configuration default, used by the harvest loop. -/
def per_page : Nat := 100

/-- `max_pages = self.GITHUB_MAX_RESULTS // self.per_page` in
`_fetch_all_pages`. -/
def max_pages : Nat := GITHUB_MAX_RESULTS / per_page

/-- The part of a search response the harvest loop inspects: HTTP status,
length of the `items` array, and `total_count`. -/
structure PageResponse where
  status : Nat
  items_len : Nat
  total_count : Nat
  deriving DecidableEq

/-- The `while page <= max_pages` loop of `SearchEngine._fetch_all_pages`,
counting the page requests it performs.  `server` gives the response for each
page number.  Each loop iteration makes one request, then breaks on a
non-200 status, an empty `items` array, or once
`page * per_page ≥ total_count` or `page * per_page ≥ 1000`; otherwise it
advances to the next page.  The loop guard bounds the iteration count by
`max_pages`, so fuel `max_pages + 1` makes the recursion total without
cutting any iteration short. -/
def fetch_pages_from (server : Nat → PageResponse) : Nat → Nat → Nat
  | 0, _ => 0
  | fuel + 1, page =>
    if page ≤ max_pages then
      let r := server page
      1 + (if r.status ≠ 200 then 0
        else if r.items_len = 0 then 0
        else if page * per_page ≥ r.total_count ∨ page * per_page ≥ GITHUB_MAX_RESULTS
          then 0
        else fetch_pages_from server fuel (page + 1))
    else 0

/-- Number of page requests performed by one run of `_fetch_all_pages`. -/
def fetch_all_pages_requests (server : Nat → PageResponse) : Nat :=
  fetch_pages_from server (max_pages + 1) 1

/-- Closed form of the page loop under full 200-status pages reporting a
constant `total_count`. -/
lemma fetch_pages_from_eq (n : Nat) (hn : 1 ≤ n)
    (server : Nat → PageResponse) (hs : ∀ p, server p = ⟨200, 100, n⟩) :
    ∀ fuel page, 1 ≤ page → page ≤ min ((n + 99) / 100) 10 →
      page + fuel = 12 →
      fetch_pages_from server fuel page = min ((n + 99) / 100) 10 - page + 1 := by
  intro fuel
  induction fuel with
  | zero => intro page h1 h2 h3; omega
  | succ f ih =>
    intro page h1 h2 h3
    have hpage : page ≤ max_pages := by
      simp only [max_pages, per_page, GITHUB_MAX_RESULTS]
      omega
    rw [fetch_pages_from, if_pos hpage, hs page]
    simp only [per_page, GITHUB_MAX_RESULTS]
    by_cases hbreak : page * 100 ≥ n ∨ page * 100 ≥ 1000
    · rw [if_neg (by decide), if_neg (by decide), if_pos hbreak]
      omega
    · rw [if_neg (by decide), if_neg (by decide), if_neg hbreak]
      have := ih (page + 1) (by omega) (by omega) (by omega)
      omega

/-- C2.  If every page request of a harvest returns status 200 with a full
page of `per_page = 100` items and the same `total_count = n ≥ 1`, and no
interruption occurs, the harvest loop performs exactly
`min(⌈n / 100⌉, 10)` page fetches. -/
theorem bounded_pages (server : Nat → PageResponse) (n : Nat) (hn : 1 ≤ n)
    (hs : ∀ p, server p = ⟨200, 100, n⟩) :
    fetch_all_pages_requests server = min ((n + 99) / 100) 10 := by
  have h := fetch_pages_from_eq n hn server hs (max_pages + 1) 1
    (by omega) (by omega) (by simp [max_pages, per_page, GITHUB_MAX_RESULTS])
  rw [fetch_all_pages_requests, h]
  omega

/-- Witness for C2 with `total_count = 250`: exactly 3 page fetches. -/
theorem bounded_pages_witness :
    fetch_all_pages_requests (fun _ => ⟨200, 100, 250⟩) = min ((250 + 99) / 100) 10 :=
  bounded_pages (fun _ => ⟨200, 100, 250⟩) 250 (by decide) (fun _ => rfl)

/-- `helpers.SearchResult`: a single parsed search result. -/
structure SearchResult where
  type : String
  name : String
  url : String
  html_url : String
  owner : String
  created_at : Option String := none
  updated_at : Option String := none
  description : Option String := none
  language : Option String := none
  stars : Nat := 0
  deriving DecidableEq

/-- `helpers.ScanState`: the dedup set and per-kind counters of the Sink.
The Python `set` of seen URLs is modelled as a list with a `Nodup`
invariant proved below. -/
structure ScanState where
  results : List String := []
  total_repos : Nat := 0
  total_gists : Nat := 0
  current_slice : String := ""
  interrupted : Bool := false
  deriving DecidableEq

/-- The fresh `ScanState()` a scan starts from. -/
def initState : ScanState := {}

/-- `ScanState.add_result`: drop the record if its `url` field was already
seen, otherwise record the `url` and bump `total_repos` for type
`"repository"` and `total_gists` for every other type.  Returns the
`accepted` flag together with the updated state. -/
def add_result (s : ScanState) (r : SearchResult) : Bool × ScanState :=
  if r.url ∈ s.results then (false, s)
  else
    (true,
      { s with
        results := r.url :: s.results
        total_repos := if r.type = "repository" then s.total_repos + 1 else s.total_repos
        total_gists := if r.type = "repository" then s.total_gists else s.total_gists + 1 })

/-- Running a whole sequence of `add_result` calls. -/
def run_adds (s : ScanState) (rs : List SearchResult) : ScanState :=
  rs.foldl (fun st r => (add_result st r).2) s

/-- One step of `add_result` preserves the dedup/counter invariant. -/
lemma add_result_invariant (s : ScanState) (r : SearchResult)
    (hnd : s.results.Nodup)
    (hcard : s.results.length = s.total_repos + s.total_gists) :
    ((add_result s r).2.results).Nodup
    ∧ (add_result s r).2.results.length =
        (add_result s r).2.total_repos + (add_result s r).2.total_gists := by
  rw [add_result]
  by_cases hmem : r.url ∈ s.results
  · rw [if_pos hmem]
    exact ⟨hnd, hcard⟩
  · rw [if_neg hmem]
    refine ⟨List.nodup_cons.mpr ⟨hmem, hnd⟩, ?_⟩
    by_cases hty : r.type = "repository" <;>
      simp only [hty, if_pos, if_neg, ite_true, ite_false, List.length_cons] <;>
      omega

/-- C4 counterexample.  Two records with the same canonical (browser-visible)
`html_url` but different API `url` fields are both accepted: the second
`add_result` call returns `true` although its `html_url` was already seen,
because the source deduplicates on the `url` field, not on `html_url`. -/
theorem dedup_key_counterexample :
    let r1 : SearchResult :=
      { type := "repository", name := "octo/app", url := "https://api.github.com/repos/octo/app",
        html_url := "https://github.com/octo/app", owner := "octo" }
    let r2 : SearchResult :=
      { type := "repository", name := "octo/app", url := "https://api.github.com/repositories/77",
        html_url := "https://github.com/octo/app", owner := "octo" }
    r2.html_url = r1.html_url
    ∧ (add_result initState r1).1 = true
    ∧ (add_result (add_result initState r1).2 r2).1 = true := by
  refine ⟨rfl, rfl, ?_⟩
  decide

/-- C4 (amended).  `add_result` accepts a record iff its `url` field (the
API URL, not the browser-visible `html_url`) was not previously seen; after
any sequence of `add_result` calls starting from a fresh state, the recorded
URL set is duplicate-free and its cardinality equals
`total_repos + total_gists`. -/
theorem dedup_invariant (rs : List SearchResult) :
    (∀ (s : ScanState) (r : SearchResult),
      (add_result s r).1 = true ↔ r.url ∉ s.results)
    ∧ (run_adds initState rs).results.Nodup
    ∧ (run_adds initState rs).results.length =
        (run_adds initState rs).total_repos + (run_adds initState rs).total_gists := by
  refine ⟨?_, ?_⟩
  · intro s r
    rw [add_result]
    by_cases hmem : r.url ∈ s.results
    · rw [if_pos hmem]
      simpa using hmem
    · rw [if_neg hmem]
      simpa using hmem
  · have key : ∀ (l : List SearchResult) (s : ScanState), s.results.Nodup →
        s.results.length = s.total_repos + s.total_gists →
        (run_adds s l).results.Nodup
        ∧ (run_adds s l).results.length =
            (run_adds s l).total_repos + (run_adds s l).total_gists := by
      intro l
      induction l with
      | nil => intro s h1 h2; exact ⟨h1, h2⟩
      | cons r rest ih =>
        intro s h1 h2
        have step := add_result_invariant s r h1 h2
        exact ih (add_result s r).2 step.1 step.2
    exact key rs initState (by simp [initState]) (by simp [initState])

/-- Witness for C4 (amended) on a concrete two-record sequence with a
duplicated `url`. -/
theorem dedup_invariant_witness :
    (run_adds initState
        [{ type := "repository", name := "a", url := "u1", html_url := "h1", owner := "o" },
         { type := "code", name := "b", url := "u1", html_url := "h2", owner := "o" }]).results.Nodup
    ∧ (run_adds initState
        [{ type := "repository", name := "a", url := "u1", html_url := "h1", owner := "o" },
         { type := "code", name := "b", url := "u1", html_url := "h2", owner := "o" }]).results.length =
      (run_adds initState
        [{ type := "repository", name := "a", url := "u1", html_url := "h1", owner := "o" },
         { type := "code", name := "b", url := "u1", html_url := "h2", owner := "o" }]).total_repos +
      (run_adds initState
        [{ type := "repository", name := "a", url := "u1", html_url := "h1", owner := "o" },
         { type := "code", name := "b", url := "u1", html_url := "h2", owner := "o" }]).total_gists :=
  (dedup_invariant
    [{ type := "repository", name := "a", url := "u1", html_url := "h1", owner := "o" },
     { type := "code", name := "b", url := "u1", html_url := "h2", owner := "o" }]).2

/-- `rate_limiter.RateLimitState`: quota state parsed from response
headers. -/
structure RateLimitState where
  remaining : Nat := 30
  limit : Nat := 30
  reset_time : Nat := 0
  used : Nat := 0
  resource : String := "search"
  retry_after : Option Nat := none
  deriving DecidableEq

/-- The rate-limit headers of one response, pre-parsed: a field is `none`
when the header is absent.  (Header values are decimal integers; the
source's `int(...)` parse cannot fail on well-formed values.) -/
structure RateHeaders where
  x_remaining : Option Nat := none
  x_limit : Option Nat := none
  x_reset : Option Nat := none
  x_used : Option Nat := none
  x_resource : Option String := none
  retry_after : Option Nat := none
  deriving DecidableEq

/-- `RateLimiter.__init__` default `min_remaining` threshold. -/
def min_remaining : Nat := 2

/-- `RateLimiter.update_from_headers`: copy each present header into the
state; `Retry-After` is special — it is stored when present and cleared to
`None` when absent. -/
def update_from_headers (s : RateLimitState) (h : RateHeaders) : RateLimitState :=
  { s with
    remaining := h.x_remaining.getD s.remaining
    limit := h.x_limit.getD s.limit
    reset_time := h.x_reset.getD s.reset_time
    used := h.x_used.getD s.used
    resource := h.x_resource.getD s.resource
    retry_after := h.retry_after }

/-- `RateLimitState.seconds_until_reset` at wall-clock time `now`
(`max(0, reset_time - now)`; `Nat` subtraction truncates at 0 exactly as the
source's `max` does). -/
def seconds_until_reset (s : RateLimitState) (now : Nat) : Nat :=
  s.reset_time - now

/-- `RateLimiter.check_and_wait`, returning the seconds slept before the
next request together with the state afterwards.  A stored truthy
`Retry-After` is slept for exactly and then cleared; otherwise, when
`remaining` is at or below the threshold and the reset lies in the future,
the loop sleeps `seconds_until_reset + 2` and refreshes `remaining` to
`limit`. -/
def check_and_wait (s : RateLimitState) (now : Nat) : Nat × RateLimitState :=
  if s.retry_after.getD 0 ≠ 0 then
    (s.retry_after.getD 0, { s with retry_after := none })
  else if s.remaining ≤ min_remaining then
    let wait := seconds_until_reset s now
    if 0 < wait then (wait + 2, { s with remaining := s.limit })
    else (0, s)
  else (0, s)

/-- C5.  After a response carrying `Retry-After: N` is observed via
`update_from_headers`, the sleep performed by `check_and_wait` before the
next outbound request is at least `N` seconds, and for `N > 0` it is exactly
`N`: the header is obeyed exactly and never undercut. -/
theorem retry_after_honored (s : RateLimitState) (h : RateHeaders)
    (now N : Nat) (hra : h.retry_after = some N) :
    N ≤ (check_and_wait (update_from_headers s h) now).1
    ∧ (0 < N → (check_and_wait (update_from_headers s h) now).1 = N) := by
  have hstate : (update_from_headers s h).retry_after = some N := by
    rw [update_from_headers, hra]
  by_cases hN : N = 0
  · subst hN
    exact ⟨Nat.zero_le _, fun hc => absurd hc (by omega)⟩
  · have : (update_from_headers s h).retry_after.getD 0 ≠ 0 := by
      rw [hstate]; simpa using hN
    rw [check_and_wait, if_pos this, hstate]
    exact ⟨by simp, fun _ => by simp⟩

/-- Witness for C5: a response with `Retry-After: 7` makes the next
`check_and_wait` sleep exactly 7 seconds. -/
theorem retry_after_honored_witness :
    7 ≤ (check_and_wait (update_from_headers {} { retry_after := some 7 }) 1000).1
    ∧ (0 < 7 → (check_and_wait (update_from_headers {} { retry_after := some 7 }) 1000).1 = 7) :=
  retry_after_honored {} { retry_after := some 7 } 1000 7 rfl

/-- `auth_manager.TokenInfo`: one credential with its tracked quota. -/
structure TokenInfo where
  token : String
  remaining : Nat := 30
  reset_time : Nat := 0
  is_valid : Bool := true
  resource : String := "search"
  retry_after : Option Nat := none
  deriving DecidableEq

instance : Inhabited TokenInfo := ⟨{ token := "" }⟩

/-- `AuthManager.MIN_REMAINING_THRESHOLD`. -/
def MIN_REMAINING_THRESHOLD : Nat := 2

/-- `TokenInfo.seconds_until_reset` at wall-clock time `now`. -/
def token_seconds_until_reset (t : TokenInfo) (now : Nat) : Nat :=
  t.reset_time - now

/-- The selection test of `_try_rotate_or_wait` and `_rotate_token`:
`token.is_valid and token.remaining >= MIN_REMAINING_THRESHOLD`. -/
def usable (t : TokenInfo) : Bool :=
  t.is_valid && MIN_REMAINING_THRESHOLD ≤ t.remaining

/-- Python's `min` over a non-empty list (`[]` is unreachable in the
source: it is guarded by the no-valid-tokens error). -/
def min_list : List Nat → Nat
  | [] => 0
  | x :: xs => xs.foldl Nat.min x

/-- The cursor walk `while self._current_token != token: next(cycle)` of
`_try_rotate_or_wait`: advance cyclically until the token at the cursor
equals the target (value equality, as for Python dataclasses).  Fuel
`tokens.length` suffices because the target is an element of the list. -/
def walk_to (tokens : List TokenInfo) (target : TokenInfo) : Nat → Nat → Nat
  | 0, cur => cur
  | fuel + 1, cur =>
    if tokens.getD cur default = target then cur
    else walk_to tokens target fuel ((cur + 1) % tokens.length)

/-- `AuthManager._try_rotate_or_wait`.  Returns `none` when no valid token
remains (the source raises `ValueError`); otherwise the token list, the new
cursor, and the seconds slept.  If some token is usable the cursor walks to
the first such token with no sleep.  Otherwise the source sleeps
`min_reset + 5` and sets every token's `remaining` to the constant 30 — but
only when the minimum reset over valid tokens is strictly positive. -/
def try_rotate_or_wait (tokens : List TokenInfo) (cur now : Nat) :
    Option (List TokenInfo × Nat × Nat) :=
  match tokens.find? usable with
  | some tok => some (tokens, walk_to tokens tok tokens.length cur, 0)
  | none =>
    let valid := tokens.filter (fun t => t.is_valid)
    if valid.isEmpty then none
    else
      let m := min_list (valid.map (fun t => token_seconds_until_reset t now))
      if 0 < m then
        some (tokens.map (fun t => { t with remaining := 30 }), cur, m + 5)
      else
        some (tokens, cur, 0)

/-- The credential-pool state of `AuthManager`: token list plus cursor. -/
structure AuthState where
  tokens : List TokenInfo
  cur : Nat
  deriving DecidableEq

/-- `AuthManager.current_token`. -/
def current_token (st : AuthState) : TokenInfo :=
  st.tokens.getD st.cur default

/-- `AuthManager.get_best_token`: rotate or wait when the current token's
`remaining` is below the threshold, then return the current token.  `none`
models the no-valid-tokens `ValueError`; the last component is the seconds
slept. -/
def get_best_token (st : AuthState) (now : Nat) :
    Option (TokenInfo × AuthState × Nat) :=
  if (current_token st).remaining < MIN_REMAINING_THRESHOLD then
    match try_rotate_or_wait st.tokens st.cur now with
    | none => none
    | some (tokens2, cur2, wait) =>
      some (current_token ⟨tokens2, cur2⟩, ⟨tokens2, cur2⟩, wait)
  else
    some (current_token st, st, 0)

/-- `AuthManager.get_auth_header`. -/
def get_auth_header (st : AuthState) : List (String × String) :=
  [("Authorization", "Bearer " ++ (current_token st).token)]

/-- The single built-in User-Agent of `HttpClient._load_user_agents`. -/
def default_user_agent : String :=
  "Mozilla/5.0 (Windows NT 10.0; Win64; x64) AppleWebKit/537.36 Chrome/120.0.0.0 Safari/537.36"

/-- The base headers `HttpClient.get` always sends. -/
def base_request_headers (ua : String) : List (String × String) :=
  [("User-Agent", ua), ("Accept", "application/vnd.github.v3+json")]

/-- The header map `HttpClient.get` sends: the base headers updated with
the caller's headers (`dict.update` semantics: caller keys override,
fresh keys are added); `none` models a call that passes no `headers`
argument. -/
def http_get_headers (ua : String) (headers : Option (List (String × String))) :
    List (String × String) :=
  match headers with
  | none => base_request_headers ua
  | some extra =>
    (base_request_headers ua).filter (fun p => (extra.lookup p.1).isNone) ++ extra

/-- The headers of the one request `GistSearchEngine.search_gists` issues
per page: `self.http.get(url, params=...)` passes no `headers` argument. -/
def gist_request_headers (ua : String) : List (String × String) :=
  http_get_headers ua none

/-- The headers of an API request issued by `SearchEngine._make_request`:
`get_best_token()` first, then `http.get(endpoint, headers=get_auth_header(),
params=...)`.  Paired with the token `get_best_token` returned. -/
def make_request_headers (st : AuthState) (now : Nat) (ua : String) :
    Option (List (String × String) × TokenInfo) :=
  match get_best_token st now with
  | none => none
  | some (tok, st2, _) =>
    some (http_get_headers ua (some (get_auth_header st2)), tok)

/-- `get_best_token` returns exactly the token its final state's cursor
points at (`self.current_token`). -/
lemma get_best_token_current (st : AuthState) (now : Nat)
    (tok : TokenInfo) (st2 : AuthState) (w : Nat)
    (h : get_best_token st now = some (tok, st2, w)) :
    tok = current_token st2 := by
  rw [get_best_token] at h
  split at h
  · split at h
    · exact absurd h (by simp)
    · simp only [Option.some.injEq, Prod.mk.injEq] at h
      obtain ⟨h1, h2, h3⟩ := h
      rw [← h2, ← h1]
  · simp only [Option.some.injEq, Prod.mk.injEq] at h
    obtain ⟨h1, h2, h3⟩ := h
    rw [← h2, ← h1]

/-- C6 counterexample.  The gist-scraping request issued by
`GistSearchEngine.search_gists` carries no `Authorization` header at all:
`http.get` is called without a `headers` argument, so the final header map
is only the transport's User-Agent and Accept headers. -/
theorem gist_request_no_auth :
    (gist_request_headers default_user_agent).lookup "Authorization" = none := by
  decide

/-- C6 (amended).  Every API request issued through
`SearchEngine._make_request` carries an `Authorization` header whose value
is `Bearer ` followed by exactly the token returned by the immediately
preceding `get_best_token()` call; gist-scraping requests are the exception
and carry no such header. -/
theorem auth_header_from_acquire (st : AuthState) (now : Nat) (ua : String)
    (tok : TokenInfo) (st2 : AuthState) (w : Nat)
    (h : get_best_token st now = some (tok, st2, w)) :
    ∃ hdrs, make_request_headers st now ua = some (hdrs, tok)
      ∧ hdrs.lookup "Authorization" = some ("Bearer " ++ tok.token) := by
  refine ⟨http_get_headers ua (some (get_auth_header st2)), ?_, ?_⟩
  · rw [make_request_headers, h]
  · rw [get_best_token_current st now tok st2 w h]
    simp [http_get_headers, base_request_headers, get_auth_header, List.lookup]

/-- Witness for C6 (amended): a pool with one fresh token. -/
theorem auth_header_from_acquire_witness :
    ∃ hdrs,
      make_request_headers
          ⟨[{ token := "ghp_abc", remaining := 30 }], 0⟩ 0 default_user_agent =
        some (hdrs, { token := "ghp_abc", remaining := 30 })
      ∧ hdrs.lookup "Authorization" =
          some ("Bearer " ++ TokenInfo.token { token := "ghp_abc", remaining := 30 }) :=
  auth_header_from_acquire ⟨[{ token := "ghp_abc", remaining := 30 }], 0⟩ 0
    default_user_agent { token := "ghp_abc", remaining := 30 }
    ⟨[{ token := "ghp_abc", remaining := 30 }], 0⟩ 0 (by decide)

/-- C3 counterexample.  A pool whose single valid credential is exhausted
(`remaining = 0`) but whose reset epoch has already passed
(`seconds_until_reset = 0`): the claim demands a wait of `0 + 5` seconds
followed by a refresh of `remaining` to the known limit 30, but
`_try_rotate_or_wait` skips both and leaves `remaining = 0`. -/
theorem exhausted_pool_no_refresh :
    try_rotate_or_wait [{ token := "ghp_x", remaining := 0 }] 0 0 =
      some ([{ token := "ghp_x", remaining := 0 }], 0, 0)
    ∧ try_rotate_or_wait [{ token := "ghp_x", remaining := 0 }] 0 0 ≠
      some ([{ token := "ghp_x", remaining := 30 }], 0, 5) := by
  constructor
  · rfl
  · decide

/-- C3 (amended).  When no credential is usable but at least one is valid,
`_try_rotate_or_wait` computes the minimum `seconds_until_reset` over the
valid credentials; if that minimum is strictly positive it blocks for
exactly the minimum plus a 5-second safety margin and then resets every
credential's `remaining` to the constant 30 (the known search-API limit),
and if the minimum is zero it neither waits nor changes any credential. -/
theorem exhausted_pool_wait (tokens : List TokenInfo) (cur now : Nat)
    (hno : ∀ t ∈ tokens, usable t = false)
    (hvalid : ∃ t ∈ tokens, t.is_valid) :
    let m := min_list ((tokens.filter (fun t => t.is_valid)).map
      (fun t => token_seconds_until_reset t now))
    (0 < m →
      try_rotate_or_wait tokens cur now =
        some (tokens.map (fun t => { t with remaining := 30 }), cur, m + 5)
      ∧ ∀ t2 ∈ tokens.map (fun t => { t with remaining := 30 }), t2.remaining = 30)
    ∧ (m = 0 → try_rotate_or_wait tokens cur now = some (tokens, cur, 0)) := by
  intro m
  have hfind : tokens.find? usable = none :=
    List.find?_eq_none.mpr (fun t ht => by simp [hno t ht])
  have hne : ¬(tokens.filter (fun t => t.is_valid)).isEmpty := by
    obtain ⟨t, ht, hv⟩ := hvalid
    have : t ∈ tokens.filter (fun t => t.is_valid) :=
      List.mem_filter.mpr ⟨ht, by simp [hv]⟩
    intro hemp
    rw [List.isEmpty_iff] at hemp
    rw [hemp] at this
    exact absurd this (List.not_mem_nil t)
  constructor
  · intro hm
    constructor
    · rw [try_rotate_or_wait, hfind]
      simp only [hne, if_false, Bool.false_eq_true]
      rw [if_pos hm]
    · intro t2 ht2
      rw [List.mem_map] at ht2
      obtain ⟨t, ht, rfl⟩ := ht2
      rfl
  · intro hm
    rw [try_rotate_or_wait, hfind]
    simp only [hne, if_false, Bool.false_eq_true]
    rw [if_neg (by omega)]

/-- An exhausted but valid token whose reset lies 60 seconds in the future
(used as the concrete input of the C3 witness). -/
def exhausted_token : TokenInfo :=
  { token := "ghp_w", remaining := 0, reset_time := 60 }

/-- Witness for C3 (amended): one exhausted valid token whose reset lies 60
seconds in the future; the pool blocks 65 seconds and refreshes. -/
theorem exhausted_pool_wait_witness :
    try_rotate_or_wait [exhausted_token] 0 0 =
      some ([exhausted_token].map (fun t => { t with remaining := 30 }), 0,
        min_list (([exhausted_token].filter (fun t => t.is_valid)).map
          (fun t => token_seconds_until_reset t 0)) + 5)
    ∧ ∀ t2 ∈ [exhausted_token].map (fun t => { t with remaining := 30 }),
        t2.remaining = 30 :=
  (exhausted_pool_wait [exhausted_token] 0 0 (by decide)
    ⟨exhausted_token, by decide⟩).1 (by decide)

/-- The part of an API response `SearchEngine._make_request` and the probe
inspect: the HTTP status, whether the body contains `"rate limit"` /
`"abuse"`, and the reported `total_count`. -/
structure ApiResponse where
  status : Nat
  body_rate_limit : Bool := false
  body_abuse : Bool := false
  total_count : Nat := 0
  deriving DecidableEq

/-- The control flow of `SearchEngine._make_request` for one endpoint whose
server response is `r` each time (the source retries the same request by
recursion).  Returns the response handed back to the caller (`none` models
`return None`) together with the number of HTTP requests issued.  A 403
whose body matches `"rate limit"` or `"abuse"` is retried; a 422 returns
`None` immediately with no retry; anything else is returned as-is.  `fuel`
bounds the 403 retry recursion (which the source leaves unbounded). -/
def make_request_flow : Nat → ApiResponse → Option ApiResponse × Nat
  | 0, _ => (none, 0)
  | fuel + 1, r =>
    if r.status = 403 ∧ r.body_rate_limit then
      let rec2 := make_request_flow fuel r
      (rec2.1, rec2.2 + 1)
    else if r.status = 403 ∧ r.body_abuse then
      let rec2 := make_request_flow fuel r
      (rec2.1, rec2.2 + 1)
    else if r.status = 422 then (none, 1)
    else (some r, 1)

/-- `SearchEngine._get_result_count`: the probe's `total_count` on a 200
response, `0` when `_make_request` returned `None` or a non-200 status. -/
def get_result_count (fuel : Nat) (r : ApiResponse) : Nat :=
  match (make_request_flow fuel r).1 with
  | some resp => if resp.status = 200 then resp.total_count else 0
  | none => 0

/-- The externally visible actions of `_recursive_search`: count probes and
page harvests (`_fetch_all_pages` calls). -/
inductive SearchAction where
  | probe (s : TimeSlice)
  | harvest (s : TimeSlice)
  deriving DecidableEq

/-- `SearchEngine._recursive_search` without interruption, as the list of
probes and harvests it performs: probe the slice; stop on count 0; harvest
when the count is within the 1000 cap; otherwise split and recurse, or
harvest anyway when the slice no longer splits.  `depth` is structural fuel
for the year→month→day recursion (3 levels suffice, see C9);
`fuel` is the `_make_request` retry fuel. -/
def recursive_search (server : TimeSlice → ApiResponse) (fuel : Nat) :
    Nat → TimeSlice → List SearchAction
  | 0, _ => []
  | depth + 1, s =>
    let count := get_result_count fuel (server s)
    SearchAction.probe s ::
      (if count = 0 then []
       else if count ≤ GITHUB_MAX_RESULTS then [SearchAction.harvest s]
       else
         let subs := split_time_slice s
         if subs.isEmpty then [SearchAction.harvest s]
         else subs.flatMap (fun c => recursive_search server fuel depth c))

/-- C7.  When the count probe for a slice gets a 422 validation response,
`_make_request` returns `None` after exactly one request (no retry), the
probe reports count 0, and the driver performs no harvest and recurses into
no child slices: the trace for the slice is the single probe. -/
theorem validation_skips_slice (server : TimeSlice → ApiResponse)
    (s : TimeSlice) (fuel depth : Nat)
    (h422 : (server s).status = 422) :
    make_request_flow (fuel + 1) (server s) = (none, 1)
    ∧ get_result_count (fuel + 1) (server s) = 0
    ∧ recursive_search server (fuel + 1) (depth + 1) s = [SearchAction.probe s] := by
  have hreq : make_request_flow (fuel + 1) (server s) = (none, 1) := by
    rw [make_request_flow]
    rw [if_neg (by simp [h422]), if_neg (by simp [h422]), if_pos h422]
  have hcount : get_result_count (fuel + 1) (server s) = 0 := by
    rw [get_result_count, hreq]
  refine ⟨hreq, hcount, ?_⟩
  rw [recursive_search]
  simp [hcount]

/-- Witness for C7: a server that answers 422 on every probe. -/
theorem validation_skips_slice_witness :
    make_request_flow (0 + 1)
        ((fun _ => ⟨422, false, false, 0⟩ : TimeSlice → ApiResponse)
          ⟨⟨2023, 1, 1⟩, ⟨2023, 12, 31⟩, "year"⟩) = (none, 1)
    ∧ get_result_count (0 + 1)
        ((fun _ => ⟨422, false, false, 0⟩ : TimeSlice → ApiResponse)
          ⟨⟨2023, 1, 1⟩, ⟨2023, 12, 31⟩, "year"⟩) = 0
    ∧ recursive_search (fun _ => ⟨422, false, false, 0⟩) (0 + 1) (0 + 1)
        ⟨⟨2023, 1, 1⟩, ⟨2023, 12, 31⟩, "year"⟩ =
      [SearchAction.probe ⟨⟨2023, 1, 1⟩, ⟨2023, 12, 31⟩, "year"⟩] :=
  validation_skips_slice (fun _ => ⟨422, false, false, 0⟩)
    ⟨⟨2023, 1, 1⟩, ⟨2023, 12, 31⟩, "year"⟩ 0 0 rfl

/-- The fields of a raw API item that `_parse_result` reads, each `none`
when absent (`dict.get` semantics). -/
structure RawItem where
  full_name : Option String := none
  name : Option String := none
  url : Option String := none
  html_url : Option String := none
  owner_login : Option String := none
  created_at : Option String := none
  updated_at : Option String := none
  description : Option String := none
  language : Option String := none
  stargazers_count : Option Nat := none
  repo_owner_login : Option String := none
  repo_description : Option String := none
  deriving DecidableEq

/-- `SearchEngine._parse_result`: repository-search items become records of
type `"repository"`; every other search type (the `"code"` branch) becomes a
record of type `"code"`, with owner and description read from the item's
`repository` object. -/
def parse_result (item : RawItem) (search_type : String) : SearchResult :=
  if search_type = "repositories" then
    { type := "repository"
      name := item.full_name.getD (item.name.getD "unknown")
      url := item.url.getD ""
      html_url := item.html_url.getD ""
      owner := item.owner_login.getD "unknown"
      created_at := item.created_at
      updated_at := item.updated_at
      description := item.description
      language := item.language
      stars := item.stargazers_count.getD 0 }
  else
    { type := "code"
      name := item.name.getD "unknown"
      url := item.url.getD ""
      html_url := item.html_url.getD ""
      owner := item.repo_owner_login.getD "unknown"
      description := item.repo_description
      language := item.language }

/-- C10.  Every accepted record increments exactly one counter:
`total_repos` for type `"repository"`, `total_gists` for every other type;
and code-search items are parsed with type `"code"`, so accepted code
results are always counted in `total_gists` and never in `total_repos`. -/
theorem kind_counters (s : ScanState) (r : SearchResult)
    (hacc : (add_result s r).1 = true) :
    ((r.type = "repository" →
        (add_result s r).2.total_repos = s.total_repos + 1
        ∧ (add_result s r).2.total_gists = s.total_gists)
      ∧ (r.type ≠ "repository" →
        (add_result s r).2.total_gists = s.total_gists + 1
        ∧ (add_result s r).2.total_repos = s.total_repos))
    ∧ (∀ item : RawItem, (parse_result item "code").type = "code"
        ∧ (parse_result item "repositories").type = "repository"
        ∧ (parse_result item "code").type ≠ "repository") := by
  have hmem : r.url ∉ s.results := by
    by_contra hmem
    rw [add_result, if_pos hmem] at hacc
    exact absurd hacc (by simp)
  constructor
  · constructor
    · intro hty
      rw [add_result, if_neg hmem]
      simp [hty]
    · intro hty
      rw [add_result, if_neg hmem]
      simp [hty]
  · intro item
    refine ⟨?_, ?_, ?_⟩ <;> simp [parse_result]

/-- Witness for C10: a fresh state accepting one code-search record. -/
theorem kind_counters_witness :
    (add_result initState
        { type := "code", name := "cfg.py", url := "u", html_url := "h",
          owner := "octo" }).2.total_gists = initState.total_gists + 1
    ∧ (add_result initState
        { type := "code", name := "cfg.py", url := "u", html_url := "h",
          owner := "octo" }).2.total_repos = initState.total_repos :=
  ((kind_counters initState
    { type := "code", name := "cfg.py", url := "u", html_url := "h",
      owner := "octo" } (by decide)).1).2 (by decide)

end Trufflepiggie
